import Mathlib

/-!
Verification development for the EhSyringe live-DOM translation engine
(`src/plugin/syringe/index.ts`).

The engine is embedded shallowly:

* a DOM element is an `ElemState` record (attributes, rendered text, and a
  flag recording whether it still has a parent, which is the liveness test
  used by the source);
* `TagNodeRef` carries the immutable fields of the source class of the same
  name (`fullKey`, `original`); its method `translate` becomes a pure
  function from the old element state to `applied : Bool` and the new
  element state;
* the registry pass `Syringe.translateTags`, classification
  `TagNodeRef.create` / `Syringe.isTagContainer`, the generic UI pass
  `Syringe.translateUiText`, the mutation-observer callback, and the
  `updateTagMap` in-flight discipline are embedded as the functions and the
  event-step relation below.

External collaborators (`Tagging.markImagesAndEmoji`, the compiled regex
substitutions inside `uiData.regexReplacements`, the `DateTime.diff`-based
timestamp rewriters, `Tagging.fullKey`) are parameters of the embedded
functions: the source calls them but their bodies live outside the embedded
module, so every theorem is stated for an arbitrary choice of these
parameters (and witnesses instantiate them with concrete functions).
-/

/-- A tag dictionary: the source's `Record<string, string>` from full tag key
to translated label, embedded as an association list. -/
def TagMap : Type := List (String × String)

/-- JavaScript property read `tagMap[key]`: `none` plays `undefined`. -/
def lookupTM (m : TagMap) (k : String) : Option String :=
  (List.find? (fun p => p.fst == k) m).map Prod.snd

/-- The subset of `ConfigData` consulted by the embedded code paths. -/
structure ConfigData where
  translateTag : Bool
  translateUi : Bool
  translateTimestamp : Option Bool
  deriving DecidableEq, Repr

/-- State of one DOM element as touched by the tag pipeline: `parentExists`
models `!!node.parentElement` (the liveness test), `text` the rendered
content (`innerText` / `innerHTML`), `lang` / `ehsTag` / `title` the
attributes of those names (`none` = attribute absent), `id` the DOM `id`
property (empty string when absent), `classes` the class list. -/
structure ElemState where
  parentExists : Bool
  text : String
  lang : Option String
  ehsTag : Option String
  title : Option String
  id : String
  classes : List String
  deriving DecidableEq, Repr

/-- Immutable fields of the source class `TagNodeRef`: the resolved full tag
key and the captured original text of the claimed text node. -/
structure TagNodeRef where
  fullKey : String
  original : String
  deriving DecidableEq, Repr

/-- JavaScript `s.split(c)` for a one-character separator (total, and the
split of `""` is `[""]`, as in JavaScript). -/
def jsSplit (sep : Char) (s : String) : List String :=
  (s.toList.splitOn sep).map String.mk

/-- The label substituted on a successful render: the translated value is
post-processed by `markImagesAndEmoji` (parameter `mark`), and a
single-character namespace-style marker of the original text
(`original[1] === ':'`) is preserved in front of it
(`` `${original[0]}:${value}` ``). -/
def renderedValue (mark : String → String) (r : TagNodeRef) (v : String) : String :=
  if r.original.toList[1]? = some ':' then
    String.mk (r.original.toList.take 1) ++ ":" ++ mark v
  else mark v

/-- `TagNodeRef.translate(tagMap)`: returns the source's `applied` flag
together with the new state of the owning element.  Mirrors the branches of
the source: not alive → success, no-op; tag translation disabled → restore
`original`, `lang="en"`, success; no dictionary → failure; falsy looked-up
value (`undefined` or `""`) → failure, element untouched; otherwise
substitute the rendered label and set `lang="cmn-Hans"`. -/
def TagNodeRef.translate (cfg : ConfigData) (mark : String → String)
    (r : TagNodeRef) (tagMap : Option TagMap) (e : ElemState) : Bool × ElemState :=
  if e.parentExists = false then (true, e)
  else if cfg.translateTag = false then
    (true, { e with text := r.original, lang := some "en" })
  else
    match tagMap with
    | none => (false, e)
    | some m =>
      match lookupTM m r.fullKey with
      | none => (false, e)
      | some v =>
        if v = "" then (false, e)
        else (true, { e with text := renderedValue mark r v, lang := some "cmn-Hans" })

/-- TagKey derivation of `TagNodeRef.create`: from the parent element's
`title` (format `namespace:key`) or, failing that, its `id` (prefix `ta_`
stripped, underscores replaced by spaces, optional `namespace:key`).  The
result is the `{namespace, key}` pair handed to `Tagging.fullKey`; the
`key` component is `none` when the destructured `key` was `undefined`
(no `:` in the string). -/
def deriveTagKey (aTitle aId : String) : Option (String × Option String) :=
  if aTitle ≠ "" then
    let parts := jsSplit ':' aTitle
    some (parts.headD "", parts[1]?)
  else if aId ≠ "" then
    let cs := aId.toList
    let cs := if cs.take 3 = ['t', 'a', '_'] then cs.drop 3 else cs
    let parts := jsSplit ':' (String.mk (cs.map (fun c => if c = '_' then ' ' else c)))
    let ns := parts.headD ""
    match parts[1]? with
    | some k => if k ≠ "" then some (ns, some k) else some ("", some ns)
    | none => some ("", some ns)
  else none

/-- Result of `TagNodeRef.create`: the source returns `true` ("already
handled, do nothing more"), `false` ("not a tag node, fall through"), or a
fresh `TagNodeRef` (whose constructor also mutates the owning element). -/
inductive CreateResult where
  | claimed
  | unclaimed
  | created (ref : TagNodeRef) (elem : ElemState)
  deriving DecidableEq, Repr

/-- `TagNodeRef.create(node, service)` followed by the private constructor.
`fullKeyFn` is the external `Tagging.fullKey`; `parent` is the text node's
`parentElement` (its state, or `none`); `textContent` is
`node.textContent ?? ''`.  No parent or marker attribute present →
`claimed`; no resolvable key or falsy serialized key → `unclaimed`;
otherwise a `TagNodeRef` is created and the constructor sets the marker
attribute to the original text, `lang="en"`, and defaults `title` to the
full key when absent. -/
def TagNodeRef.create (fullKeyFn : String → Option String → String)
    (parent : Option ElemState) (textContent : String) : CreateResult :=
  match parent with
  | none => .claimed
  | some p =>
    if p.ehsTag.isSome then .claimed
    else
      match (deriveTagKey (p.title.getD "") p.id).map (fun q => fullKeyFn q.1 q.2) with
      | none => .unclaimed
      | some fk =>
        if fk = "" then .unclaimed
        else
          .created ⟨fk, textContent⟩
            { p with ehsTag := some textContent,
                     lang := some "en",
                     title := if p.title.isSome then p.title else some fk }

/-- `Syringe.isTagContainer`: the fixed marker classes. -/
def Syringe.isTagContainer (node : Option ElemState) : Bool :=
  match node with
  | none => false
  | some n => n.classes.contains "gt" || n.classes.contains "gtl" || n.classes.contains "gtw"

/-- One registry entry: a `TagNodeRef` together with the current state of
its owning element. -/
structure Entry where
  ref : TagNodeRef
  elem : ElemState
  deriving DecidableEq, Repr

/-- The registry-relevant fields of the `Syringe` service: `tags` is the
tracked-node list, `tagMap` the field of that name, `storageMap` the value
`storage.get('databaseMap')` would return. -/
structure RegState where
  tags : List Entry
  tagMap : Option TagMap
  storageMap : Option TagMap

/-- `Syringe.translateTags(tagMap?)`: prune not-alive entries, coalesce the
dictionary (`tagMap ??= this.tagMap ??= storage.get('databaseMap')`),
remember it, and render every remaining entry with it (return values of the
individual renders are discarded, so failures do not abort the batch). -/
def Syringe.translateTags (cfg : ConfigData) (mark : String → String)
    (st : RegState) (tagMapArg : Option TagMap) : RegState :=
  let tags := st.tags.filter (fun en => en.elem.parentExists)
  let tagMap :=
    match tagMapArg with
    | some m => some m
    | none => match st.tagMap with
      | some m => some m
      | none => st.storageMap
  { st with
      tags := tags.map (fun en =>
        { en with elem := (TagNodeRef.translate cfg mark en.ref tagMap en.elem).snd }),
      tagMap := tagMap }

/-- The two fields of `uiData` consulted by `translateUiText`: the exact
phrase table (a `Map`, embedded as an association list) and the ordered
pattern-substitution rules.  Each rule is the external function
`s => s.replace(k, v)` — one compiled-regex global substitution, which
returns its argument unchanged when the pattern does not match. -/
structure UiData where
  plainReplacements : List (String × String)
  regexReplacements : List (String → String)

/-- The chaining loop of `translateUiText` over the pattern rules, isolated:
`for (const [k, v] of regexReplacements) repText = repText.replace(k, v)`. -/
def chainRules (rules : List (String → String)) (text : String) : String :=
  rules.foldl (fun acc rule => rule acc) text

/-- `Syringe.translateUiText(text)`: exact phrase-table lookup first; on a
miss, every pattern rule is applied in order to the running text, then (when
`config.translateTimestamp !== false`) the two timestamp substitution passes
`ts1` and `ts2` (external: regex plus `DateTime.diff`) run on the result;
the text is returned iff it changed, else `undefined`. -/
def Syringe.translateUiText (uiData : UiData) (translateTimestamp : Option Bool)
    (ts1 ts2 : String → String) (text : String) : Option String :=
  match lookupTM uiData.plainReplacements text with
  | some plain => some plain
  | none =>
    let repText := uiData.regexReplacements.foldl (fun acc rule => rule acc) text
    let repText := if translateTimestamp ≠ some false then ts2 (ts1 repText) else repText
    if repText ≠ text then some repText else none

/-- The behaviour the spec ascribes to the pattern-rule stage: the first
rule that changes the text wins, later rules are not attempted, and each
rule operates on the original text. -/
def firstMatchRules (rules : List (String → String)) (text : String) : String :=
  match rules.find? (fun rule => rule text ≠ text) with
  | some rule => rule text
  | none => text

/-- A DOM node for the mutation-pump model: a label and the child list. -/
inductive DomNode where
  | node (label : Nat) (children : List DomNode)

/-- The label of a `DomNode`. -/
def DomNode.label : DomNode → Nat
  | .node l _ => l

mutual

/-- Document order of a subtree, root first — the order
`document.createNodeIterator(root)` reports nodes in. -/
def preorder : DomNode → List Nat
  | .node l cs => l :: preorderList cs

/-- Document order of a forest of subtrees. -/
def preorderList : List DomNode → List Nat
  | [] => []
  | c :: cs => preorder c ++ preorderList cs

end

/-- The `translateNode` calls the observer callback makes for one added
node: `translateNode(node1)` first, then — since `node1.childNodes` is
always truthy — when `documentEnd` holds, one call per node of a fresh
`createNodeIterator(node1)` walk, which starts at `node1` itself. -/
def observerVisits (documentEnd : Bool) (added : DomNode) : List Nat :=
  added.label :: (if documentEnd then preorder added else [])

/-- The `translateNode` calls for one batch of mutations: mutations in
delivery order, each mutation's `addedNodes` in reported order. -/
def batchVisits (documentEnd : Bool) (muts : List (List DomNode)) : List Nat :=
  muts.flatMap (fun added => added.flatMap (observerVisits documentEnd))

/-- One entry of the provider's `data.map` values (`EHTag`): only the `name`
field is read by `updateTagMap`. -/
structure EHTag where
  name : String
  deriving DecidableEq, Repr

/-- The provider response of `messaging.emit('get-tag-map', ...)`:
`map` is `undefined` when the caller's fingerprint is current. -/
structure TagMapResponse where
  map : Option (List (String × EHTag))
  sha : String
  deriving DecidableEq, Repr

/-- The conversion loop of `updateTagMap`:
`for (const key in data.map) tagMap[key] = data.map[key].name`. -/
def convertTagMap (m : List (String × EHTag)) : TagMap :=
  m.map (fun p => (p.fst, p.snd.name))

/-- How the pending provider call settles: a response, or a rejection
(network/decode failure) caught by the `catch` block. -/
inductive ProviderOutcome where
  | response (data : TagMapResponse)
  | failure

/-- The sync-coordinator state: the in-flight guard `updatingTagMap`
(promise present or not), counters of provider requests issued and settled,
the persisted cache (`databaseMap`, `databaseSha`), and how many bulk
re-translation passes (`translateTags`) have been triggered. -/
structure SyncState where
  updatingTagMap : Bool
  requests : Nat
  completes : Nat
  databaseMap : Option TagMap
  databaseSha : Option String
  retranslations : Nat

/-- The synchronous part of `Syringe.updateTagMap()`: if a refresh is in
flight, return at once (no request); otherwise issue the provider request
(the async body runs to its first `await`, so `messaging.emit` is called)
and set the in-flight guard before the turn ends. -/
def updateTagMapStart (s : SyncState) : SyncState :=
  if s.updatingTagMap then s
  else { s with updatingTagMap := true, requests := s.requests + 1 }

/-- The continuation of `updateTagMap` after `await messaging.emit`
settles, through `catch` and `finally`: a fresh map is converted, triggers
`translateTags`, and is written to the cache with its fingerprint; an
"unchanged" response and a failure only log; the `finally` block clears the
in-flight guard.  Total — the `catch` swallows every rejection. -/
def updateTagMapSettle (s : SyncState) (o : ProviderOutcome) : SyncState :=
  let s1 :=
    match o with
    | .response d =>
      match d.map with
      | some m =>
        { s with retranslations := s.retranslations + 1,
                 databaseMap := some (convertTagMap m),
                 databaseSha := some d.sha }
      | none => s
    | .failure => s
  { s1 with updatingTagMap := false, completes := s.completes + 1 }

/-- Events of the sync coordinator's single-threaded schedule. -/
inductive SyncEvent where
  | start
  | settle (o : ProviderOutcome)

/-- One scheduling turn: a `start` is a call to `updateTagMap`; a `settle`
resumes the pending async body (a pending body exists only while the guard
is set, so a `settle` without one is a no-op of the schedule). -/
def syncStep (s : SyncState) (e : SyncEvent) : SyncState :=
  match e with
  | .start => updateTagMapStart s
  | .settle o => if s.updatingTagMap then updateTagMapSettle s o else s

/-- The coordinator's state at page load: no refresh in flight. -/
def initSyncState : SyncState :=
  { updatingTagMap := false, requests := 0, completes := 0,
    databaseMap := none, databaseSha := none, retranslations := 0 }

/-- Every issued provider request but the possibly in-flight one has
settled: the bookkeeping invariant behind "at most one refresh in
flight". -/
def syncInv (s : SyncState) : Prop :=
  s.requests = s.completes + (if s.updatingTagMap then 1 else 0)

/-- A concrete `Tagging.fullKey` instantiation used to exercise the
classification theorems: `namespace:key`, or just `key` for the default
namespace, empty when the key is missing. -/
def fkDemo : String → Option String → String := fun ns k =>
  match k with
  | some key => if ns = "" then key else ns ++ ":" ++ key
  | none => ""

/-- An unclaimed, alive tag-container element with `title="female:nakadashi"`. -/
def elemDemo : ElemState :=
  { parentExists := true, text := "orig", lang := none, ehsTag := none,
    title := some "female:nakadashi", id := "", classes := ["gt"] }

/-- `elemDemo` after a successful `TagNodeRef.create` with text `"orig"`. -/
def elemDemoClaimed : ElemState :=
  { parentExists := true, text := "orig", lang := some "en", ehsTag := some "orig",
    title := some "female:nakadashi", id := "", classes := ["gt"] }

/-- A registry with one alive tracked node, not yet rendered. -/
def stDemo : RegState :=
  { tags := [⟨⟨"k", "orig"⟩,
             { parentExists := true, text := "orig", lang := none, ehsTag := some "orig",
               title := none, id := "", classes := ["gt"] }⟩],
    tagMap := none, storageMap := none }

/-- A sync-coordinator state with a refresh in flight. -/
def sInFlight : SyncState :=
  { updatingTagMap := true, requests := 1, completes := 0,
    databaseMap := none, databaseSha := none, retranslations := 0 }

/-- The rendering the spec's retranslation property ascribes to an alive
tracked node after `retranslateAll(D)`: the rendering reflects `D`'s entry
for its key, or falls back to the original captured text when `D` lacks the
key.  (Stated from the spec's words, to be compared with what
`Syringe.translateTags` actually produces.) -/
def reflectsDictOrOriginal (mark : String → String) (D : TagMap) (en : Entry) : Prop :=
  match lookupTM D en.ref.fullKey with
  | some v => en.elem.text = renderedValue mark en.ref v
  | none => en.elem.text = en.ref.original

/-- The pattern-rule stage as the amended reading of the generic UI pass
describes it: the rules are applied in order, each operating on the output
of the earlier ones (chained), then the timestamp passes run on the result,
and the text is returned iff it changed. -/
def chainedUiResult (ud : UiData) (tts : Option Bool) (ts1 ts2 : String → String)
    (text : String) : Option String :=
  let c := chainRules ud.regexReplacements text
  let c2 := if tts ≠ some false then ts2 (ts1 c) else c
  if c2 ≠ text then some c2 else none

theorem syncInv_step (s : SyncState) (e : SyncEvent) (h : syncInv s) :
    syncInv (syncStep s e) := by
  cases e with
  | start =>
    cases hf : s.updatingTagMap with
    | true => simpa [syncStep, updateTagMapStart, hf] using h
    | false =>
      simp [syncInv, hf] at h
      simp [syncStep, updateTagMapStart, hf, syncInv, h]
  | settle o =>
    cases hf : s.updatingTagMap with
    | false => simpa [syncStep, hf] using h
    | true =>
      simp [syncInv, hf] at h
      cases o with
      | failure => simp [syncStep, hf, updateTagMapSettle, syncInv, h]
      | response d =>
        cases hm : d.map with
        | none => simp [syncStep, hf, updateTagMapSettle, hm, syncInv, h]
        | some m => simp [syncStep, hf, updateTagMapSettle, hm, syncInv, h]

theorem syncInv_foldl (evs : List SyncEvent) (s : SyncState) (h : syncInv s) :
    syncInv (evs.foldl syncStep s) := by
  induction evs generalizing s with
  | nil => exact h
  | cons e evs ih => exact ih (syncStep s e) (syncInv_step s e h)

/-- Claim C1: a call to `updateTagMap` while a refresh is in flight is a
no-op (the state, and in particular the number of provider requests, does
not change); two back-to-back calls from an idle coordinator issue exactly
one provider request; and along every schedule from the initial state, the
number of requests issued exceeds the number settled by at most one — at
most one refresh is ever in flight. -/
theorem updateTagMap_single_flight (s : SyncState) (evs : List SyncEvent) :
    (s.updatingTagMap = true → syncStep s .start = s) ∧
    (s.updatingTagMap = false →
      syncStep (syncStep s .start) .start = syncStep s .start ∧
      (syncStep (syncStep s .start) .start).requests = s.requests + 1) ∧
    (evs.foldl syncStep initSyncState).requests ≤
      (evs.foldl syncStep initSyncState).completes + 1 := by
  refine ⟨?_, ?_, ?_⟩
  · intro h
    simp [syncStep, updateTagMapStart, h]
  · intro h
    constructor
    · simp [syncStep, updateTagMapStart, h]
    · simp [syncStep, updateTagMapStart, h]
  · have hinv : syncInv (evs.foldl syncStep initSyncState) :=
      syncInv_foldl evs initSyncState (by simp [syncInv, initSyncState])
    unfold syncInv at hinv
    cases hf : (evs.foldl syncStep initSyncState).updatingTagMap <;>
      simp [hf] at hinv <;> omega

theorem updateTagMap_single_flight_checked :
    syncStep sInFlight .start = sInFlight ∧
    syncStep (syncStep initSyncState .start) .start = syncStep initSyncState .start ∧
    ([SyncEvent.start, .start, .settle .failure, .start].foldl syncStep
        initSyncState).requests ≤
      ([SyncEvent.start, .start, .settle .failure, .start].foldl syncStep
        initSyncState).completes + 1 :=
  ⟨(updateTagMap_single_flight sInFlight []).1 rfl,
   ((updateTagMap_single_flight initSyncState []).2.1 rfl).1,
   (updateTagMap_single_flight initSyncState
      [SyncEvent.start, .start, .settle .failure, .start]).2.2⟩

/-- Claim C6: settling the in-flight refresh with a failure (the `catch`
path) or an "unchanged" response leaves `databaseMap`, `databaseSha` and
the re-translation count unchanged and clears the guard — and the settle
step is a total function, so no exception reaches the caller; only a
response carrying a fresh map writes both cache fields and triggers exactly
one more registry re-translation pass. -/
theorem updateTagMap_failure_preserves_cache (s : SyncState)
    (h : s.updatingTagMap = true) :
    ((syncStep s (.settle .failure)).databaseMap = s.databaseMap ∧
     (syncStep s (.settle .failure)).databaseSha = s.databaseSha ∧
     (syncStep s (.settle .failure)).retranslations = s.retranslations ∧
     (syncStep s (.settle .failure)).updatingTagMap = false) ∧
    (∀ sha,
      (syncStep s (.settle (.response ⟨none, sha⟩))).databaseMap = s.databaseMap ∧
      (syncStep s (.settle (.response ⟨none, sha⟩))).databaseSha = s.databaseSha ∧
      (syncStep s (.settle (.response ⟨none, sha⟩))).retranslations = s.retranslations) ∧
    (∀ m sha,
      (syncStep s (.settle (.response ⟨some m, sha⟩))).databaseMap =
        some (convertTagMap m) ∧
      (syncStep s (.settle (.response ⟨some m, sha⟩))).databaseSha = some sha ∧
      (syncStep s (.settle (.response ⟨some m, sha⟩))).retranslations =
        s.retranslations + 1) := by
  simp [syncStep, h, updateTagMapSettle]

theorem updateTagMap_failure_checked :
    (syncStep sInFlight (.settle .failure)).databaseMap = sInFlight.databaseMap ∧
    (syncStep sInFlight (.settle (.response ⟨some [("k", ⟨"v"⟩)], "sha1"⟩))).databaseMap =
      some (convertTagMap [("k", ⟨"v"⟩)]) :=
  ⟨(updateTagMap_failure_preserves_cache sInFlight rfl).1.1,
   ((updateTagMap_failure_preserves_cache sInFlight rfl).2.2 [("k", ⟨"v"⟩)] "sha1").1⟩

/-- Claim C4: the branch contract of `TagNodeRef.translate` — not alive →
success without touching the element; tag translation disabled → restore
the original text, set the source-locale `lang`, succeed; no dictionary →
failure; key absent from the dictionary → failure with the element left
unchanged; key present (non-falsy) → substitute the translated label and
set the target-locale `lang`. -/
theorem translate_branch_contract (cfg : ConfigData) (mark : String → String)
    (r : TagNodeRef) (e : ElemState) :
    (e.parentExists = false → ∀ tm, TagNodeRef.translate cfg mark r tm e = (true, e)) ∧
    (e.parentExists = true → cfg.translateTag = false → ∀ tm,
      TagNodeRef.translate cfg mark r tm e =
        (true, { e with text := r.original, lang := some "en" })) ∧
    (e.parentExists = true → cfg.translateTag = true →
      TagNodeRef.translate cfg mark r none e = (false, e)) ∧
    (∀ m, e.parentExists = true → cfg.translateTag = true →
      lookupTM m r.fullKey = none →
      TagNodeRef.translate cfg mark r (some m) e = (false, e)) ∧
    (∀ m v, e.parentExists = true → cfg.translateTag = true →
      lookupTM m r.fullKey = some v → v ≠ "" →
      TagNodeRef.translate cfg mark r (some m) e =
        (true, { e with text := renderedValue mark r v, lang := some "cmn-Hans" })) := by
  refine ⟨?_, ?_, ?_, ?_, ?_⟩ <;> intros <;> simp [TagNodeRef.translate, *]

theorem translate_branch_checked :
    TagNodeRef.translate ⟨true, true, none⟩ id ⟨"k", "orig"⟩ none
      { elemDemoClaimed with parentExists := false } =
      (true, { elemDemoClaimed with parentExists := false }) ∧
    TagNodeRef.translate ⟨false, true, none⟩ id ⟨"k", "orig"⟩ none elemDemoClaimed =
      (true, { elemDemoClaimed with text := "orig", lang := some "en" }) ∧
    TagNodeRef.translate ⟨true, true, none⟩ id ⟨"k", "orig"⟩ none elemDemoClaimed =
      (false, elemDemoClaimed) ∧
    TagNodeRef.translate ⟨true, true, none⟩ id ⟨"k", "orig"⟩ (some []) elemDemoClaimed =
      (false, elemDemoClaimed) ∧
    TagNodeRef.translate ⟨true, true, none⟩ id ⟨"k", "orig"⟩ (some [("k", "标签")])
        elemDemoClaimed =
      (true, { elemDemoClaimed with
               text := renderedValue id ⟨"k", "orig"⟩ "标签",
               lang := some "cmn-Hans" }) :=
  ⟨(translate_branch_contract ⟨true, true, none⟩ id ⟨"k", "orig"⟩
      { elemDemoClaimed with parentExists := false }).1 rfl none,
   (translate_branch_contract ⟨false, true, none⟩ id ⟨"k", "orig"⟩ elemDemoClaimed).2.1
      rfl rfl none,
   (translate_branch_contract ⟨true, true, none⟩ id ⟨"k", "orig"⟩ elemDemoClaimed).2.2.1
      rfl rfl,
   (translate_branch_contract ⟨true, true, none⟩ id ⟨"k", "orig"⟩ elemDemoClaimed).2.2.2.1
      [] rfl rfl rfl,
   (translate_branch_contract ⟨true, true, none⟩ id ⟨"k", "orig"⟩ elemDemoClaimed).2.2.2.2
      [("k", "标签")] "标签" rfl rfl rfl (by decide)⟩

/-- Claim C7: `TagNodeRef.translate` is idempotent for a fixed dictionary,
configuration and post-processing function — a second call leaves the
element state (rendered text, `lang`, marker attribute and all) exactly as
the first call left it. -/
theorem translate_idempotent (cfg : ConfigData) (mark : String → String)
    (r : TagNodeRef) (tm : Option TagMap) (e : ElemState) :
    (TagNodeRef.translate cfg mark r tm
        (TagNodeRef.translate cfg mark r tm e).snd).snd =
      (TagNodeRef.translate cfg mark r tm e).snd := by
  cases hp : e.parentExists with
  | false => simp [TagNodeRef.translate, hp]
  | true =>
    cases ht : cfg.translateTag with
    | false => simp [TagNodeRef.translate, hp, ht]
    | true =>
      cases tm with
      | none => simp [TagNodeRef.translate, hp, ht]
      | some m =>
        cases hv : lookupTM m r.fullKey with
        | none => simp [TagNodeRef.translate, hp, ht, hv]
        | some v =>
          by_cases hv0 : v = "" <;> simp [TagNodeRef.translate, hp, ht, hv, hv0]

/-- Claim C10: a dictionary entry whose value is the empty string behaves
exactly like an absent entry at the render interface — `translate` fails and
leaves the element untouched, and the result coincides with the result for
any dictionary that lacks the key. -/
theorem empty_translation_is_dictionary_miss (cfg : ConfigData)
    (mark : String → String) (r : TagNodeRef) (m : TagMap) (e : ElemState)
    (hp : e.parentExists = true) (ht : cfg.translateTag = true)
    (hv : lookupTM m r.fullKey = some "") :
    TagNodeRef.translate cfg mark r (some m) e = (false, e) ∧
    ∀ m0, lookupTM m0 r.fullKey = none →
      TagNodeRef.translate cfg mark r (some m) e =
        TagNodeRef.translate cfg mark r (some m0) e := by
  constructor
  · simp [TagNodeRef.translate, hp, ht, hv]
  · intro m0 h0
    simp [TagNodeRef.translate, hp, ht, hv, h0]

theorem empty_translation_checked :
    TagNodeRef.translate ⟨true, true, none⟩ id ⟨"k", "orig"⟩ (some [("k", "")])
        elemDemoClaimed =
      (false, elemDemoClaimed) :=
  (empty_translation_is_dictionary_miss ⟨true, true, none⟩ id ⟨"k", "orig"⟩
      [("k", "")] elemDemoClaimed rfl rfl (by decide)).1

/-- Claim C5: at most one `TagNodeRef` per element — `create` on a text node
whose parent already carries the `ehs-tag` marker attribute returns the
CLAIMED sentinel and constructs nothing, and whenever `create` does
construct a `TagNodeRef` the element it returns carries the marker (set to
the original text), so any later classification attempt on that element is
CLAIMED. -/
theorem element_claimed_at_most_once (fullKeyFn : String → Option String → String)
    (p : ElemState) (t : String) :
    (p.ehsTag.isSome = true → TagNodeRef.create fullKeyFn (some p) t = .claimed) ∧
    (∀ r e', TagNodeRef.create fullKeyFn (some p) t = .created r e' →
      e'.ehsTag = some t ∧ ∀ t2, TagNodeRef.create fullKeyFn (some e') t2 = .claimed) := by
  constructor
  · intro h
    simp [TagNodeRef.create, h]
  · intro r e' h
    unfold TagNodeRef.create at h
    by_cases hp : p.ehsTag.isSome
    · simp [hp] at h
    · simp [hp] at h
      cases hd : (deriveTagKey (p.title.getD "") p.id).map (fun q => fullKeyFn q.1 q.2) with
      | none => simp [hd] at h
      | some fk =>
        simp [hd] at h
        by_cases hfk : fk = ""
        · simp [hfk] at h
        · simp [hfk] at h
          obtain ⟨-, he⟩ := h
          subst he
          constructor
          · rfl
          · intro t2
            simp [TagNodeRef.create]

theorem element_claimed_checked :
    TagNodeRef.create fkDemo (some elemDemoClaimed) "orig" = .claimed ∧
    TagNodeRef.create fkDemo
        (some { elemDemo with ehsTag := some "orig", lang := some "en" }) "again" =
      .claimed :=
  ⟨(element_claimed_at_most_once fkDemo elemDemoClaimed "orig").1 rfl,
   (((element_claimed_at_most_once fkDemo elemDemo "orig").2
      ⟨"female:nakadashi", "orig"⟩
      { elemDemo with ehsTag := some "orig", lang := some "en" }
      (by decide)).2) "again"⟩

/-- Claim C8: key derivation — a text node whose parent has class `gt` and
`title="female:nakadashi"` resolves to the TagKey pair
`(namespace := "female", key := "nakadashi")`, and a parent with no title
and `id="ta_temp_bondage"` (no colon) resolves to
`(namespace := "", key := "temp bondage")` (prefix `ta_` stripped,
underscores turned into spaces); the `gt` class makes the parent an
eligible tag container. -/
theorem tagkey_derivation_resolution :
    deriveTagKey "female:nakadashi" "" = some ("female", some "nakadashi") ∧
    deriveTagKey "" "ta_temp_bondage" = some ("", some "temp bondage") ∧
    Syringe.isTagContainer (some elemDemo) = true := by
  decide

/-- Claim C2 (counterexample): render a node under `D1 = {k ↦ foo}`, then
retranslate with `D2 = {}`.  The node's rendering is still `D1`'s label
`"foo"`, not the original `"orig"`: when `D2` lacks the key the rendering
is left untouched, so it can keep reflecting `D1` and does not fall back to
the original text. -/
theorem retranslateAll_keeps_stale_rendering :
    (Syringe.translateTags ⟨true, true, none⟩ id
        (Syringe.translateTags ⟨true, true, none⟩ id stDemo (some [("k", "foo")]))
        (some [])).tags =
      [⟨⟨"k", "orig"⟩, ⟨true, "foo", some "cmn-Hans", some "orig", none, "", ["gt"]⟩⟩] ∧
    lookupTM [("k", "foo")] "k" = some "foo" ∧
    renderedValue id ⟨"k", "orig"⟩ "foo" = "foo" ∧
    lookupTM [] "k" = none ∧
    ¬ reflectsDictOrOriginal id []
        ⟨⟨"k", "orig"⟩, ⟨true, "foo", some "cmn-Hans", some "orig", none, "", ["gt"]⟩⟩ := by
  refine ⟨by decide, by decide, by decide, by decide, ?_⟩
  intro h
  simp [reflectsDictOrOriginal, lookupTM] at h

/-- Claim C2 (amended): `retranslateAll(D2)` prunes not-alive entries and
renders each survivor with `D2`; a survivor whose key `D2` maps to a
non-empty label reflects `D2` (label post-processed, target-locale `lang`),
and a survivor whose key is absent from `D2` — or maps to the empty string —
keeps its existing rendering unchanged, which may still reflect the
previous dictionary; nothing else is in the resulting registry. -/
theorem translateTags_reflects_new_or_untouched (cfg : ConfigData)
    (mark : String → String) (st : RegState) (D2 : TagMap)
    (hcfg : cfg.translateTag = true) :
    ((Syringe.translateTags cfg mark st (some D2)).tags =
      (st.tags.filter (fun en => en.elem.parentExists)).map (fun en =>
        { en with elem := (TagNodeRef.translate cfg mark en.ref (some D2) en.elem).snd })) ∧
    ∀ (en : Entry), en.elem.parentExists = true →
      (lookupTM D2 en.ref.fullKey = none →
        (TagNodeRef.translate cfg mark en.ref (some D2) en.elem).snd = en.elem) ∧
      (lookupTM D2 en.ref.fullKey = some "" →
        (TagNodeRef.translate cfg mark en.ref (some D2) en.elem).snd = en.elem) ∧
      (∀ v, lookupTM D2 en.ref.fullKey = some v → v ≠ "" →
        (TagNodeRef.translate cfg mark en.ref (some D2) en.elem).snd =
          { en.elem with text := renderedValue mark en.ref v,
                         lang := some "cmn-Hans" }) := by
  constructor
  · unfold Syringe.translateTags
    rfl
  · intro en halive
    refine ⟨?_, ?_, ?_⟩
    · intro hv
      simp [TagNodeRef.translate, halive, hcfg, hv]
    · intro hv
      simp [TagNodeRef.translate, halive, hcfg, hv]
    · intro v hv hv0
      simp [TagNodeRef.translate, halive, hcfg, hv, hv0]

theorem translateTags_reflects_checked :
    ((Syringe.translateTags ⟨true, true, none⟩ id stDemo (some [("k", "bar")])).tags =
      (stDemo.tags.filter (fun en => en.elem.parentExists)).map (fun en =>
        { en with
          elem := (TagNodeRef.translate ⟨true, true, none⟩ id en.ref
            (some [("k", "bar")]) en.elem).snd })) ∧
    (TagNodeRef.translate ⟨true, true, none⟩ id (⟨"k", "orig"⟩ : TagNodeRef)
        (some [("k", "bar")])
        (⟨true, "orig", none, some "orig", none, "", ["gt"]⟩ : ElemState)).snd =
      { (⟨true, "orig", none, some "orig", none, "", ["gt"]⟩ : ElemState) with
        text := renderedValue id ⟨"k", "orig"⟩ "bar",
        lang := some "cmn-Hans" } :=
  ⟨(translateTags_reflects_new_or_untouched ⟨true, true, none⟩ id stDemo
      [("k", "bar")] rfl).1,
   ((translateTags_reflects_new_or_untouched ⟨true, true, none⟩ id stDemo
      [("k", "bar")] rfl).2
      ⟨⟨"k", "orig"⟩, ⟨true, "orig", none, some "orig", none, "", ["gt"]⟩⟩
      rfl).2.2 "bar" (by decide) (by decide)⟩

/-- Claim C3 (counterexample): with the rule list
`[a ↦ b, b ↦ c]` and input `"a"`, `translateUiText` returns `"c"`: the
second rule ran on the first rule's output, so rules are chained and the
first matching rule's replacement does not win (that reading would give
`"b"`). -/
theorem translateUiText_rules_chain_example :
    Syringe.translateUiText
        ⟨[], [fun s => if s = "a" then "b" else s, fun s => if s = "b" then "c" else s]⟩
        (some false) id id "a" = some "c" ∧
    firstMatchRules
        [fun s => if s = "a" then "b" else s, fun s => if s = "b" then "c" else s]
        "a" = "b" ∧
    some ("c" : String) ≠ some ("b" : String) := by
  refine ⟨by decide, by decide, by decide⟩

/-- Claim C3 (amended): on a phrase-table miss the pattern rules are all
attempted, in order, each operating on the output of the earlier ones
(chained, not on the original text); the text is returned iff the combined
passes changed it.  Chaining is exhibited by the decomposition of the rule
loop over a split of the rule list. -/
theorem translateUiText_chained_contract (ud : UiData) (tts : Option Bool)
    (ts1 ts2 : String → String) (text : String)
    (hmiss : lookupTM ud.plainReplacements text = none) :
    Syringe.translateUiText ud tts ts1 ts2 text =
      chainedUiResult ud tts ts1 ts2 text ∧
    ∀ (rs1 rs2 : List (String → String)) (t : String),
      chainRules (rs1 ++ rs2) t = chainRules rs2 (chainRules rs1 t) := by
  constructor
  · simp [Syringe.translateUiText, chainedUiResult, chainRules, hmiss]
  · intro rs1 rs2 t
    simp [chainRules, List.foldl_append]

theorem translateUiText_chained_checked :
    Syringe.translateUiText ⟨[], [fun s => s ++ "!"]⟩ (some false) id id "x" =
      chainedUiResult ⟨[], [fun s => s ++ "!"]⟩ (some false) id id "x" ∧
    chainRules ([fun s => s ++ "!"] ++ [fun s => s ++ "?"]) "x" =
      chainRules [fun s => s ++ "?"] (chainRules [fun s => s ++ "!"] "x") :=
  ⟨(translateUiText_chained_contract ⟨[], [fun s => s ++ "!"]⟩ (some false) id id "x"
      (by decide)).1,
   (translateUiText_chained_contract ⟨[], [fun s => s ++ "!"]⟩ (some false) id id "x"
      (by decide)).2 [fun s => s ++ "!"] [fun s => s ++ "?"] "x"⟩

theorem preorder_head (t : DomNode) :
    ∃ rest, preorder t = t.label :: rest := by
  cases t with
  | node l cs => exact ⟨preorderList cs, rfl⟩

/-- Claim C9 (counterexample): with the initial phase complete
(`documentEnd = true`), an added node with one child is passed to
`translateNode` twice — once directly and once as the first node reported
by `createNodeIterator(node1)`, which starts at its root — so the added
subtree's root is not visited exactly once. -/
theorem observer_double_visits_added_root :
    observerVisits true (.node 0 [.node 1 []]) = [0, 0, 1] ∧
    (observerVisits true (.node 0 [.node 1 []])).count 0 = 2 ∧
    (observerVisits true (.node 0 [.node 1 []])).count 0 ≠ 1 := by
  refine ⟨by decide, by decide, by decide⟩

/-- Claim C9 (amended): in the observing state every added node of a batch
is passed to `translateNode`; before the document-ready signal only the
added node itself is visited, and after it the iterator walk appends the
whole subtree in document order, so (for distinct nodes) each proper
descendant of an added node is visited exactly once while the added node
itself is visited twice. -/
theorem observer_visits_contract (muts : List (List DomNode)) (dEnd : Bool)
    (t : DomNode) :
    (∀ added ∈ muts, ∀ n ∈ added, n.label ∈ batchVisits dEnd muts) ∧
    observerVisits false t = [t.label] ∧
    observerVisits true t = t.label :: preorder t ∧
    ((preorder t).Nodup →
      (observerVisits true t).count t.label = 2 ∧
      ∀ x ∈ preorder t, x ≠ t.label → (observerVisits true t).count x = 1) := by
  refine ⟨?_, by simp [observerVisits], by simp [observerVisits], ?_⟩
  · intro added hadded n hn
    unfold batchVisits
    refine List.mem_flatMap_of_mem hadded (List.mem_flatMap_of_mem hn ?_)
    simp [observerVisits]
  · intro hnd
    obtain ⟨rest, hpre⟩ := preorder_head t
    have hnotmem : t.label ∉ rest := by
      rw [hpre] at hnd
      exact (List.nodup_cons.mp hnd).1
    constructor
    · simp [observerVisits, hpre, List.count_cons_self,
            List.count_eq_zero_of_not_mem hnotmem]
    · intro x hx hne
      simp only [observerVisits, if_pos rfl]
      rw [List.count_cons_of_ne hne]
      exact List.count_eq_one_of_mem hnd hx

theorem observer_visits_checked :
    (0 : Nat) ∈ batchVisits true [[DomNode.node 0 [DomNode.node 1 []]]] ∧
    (observerVisits true (DomNode.node 0 [DomNode.node 1 []])).count 1 = 1 :=
  ⟨(observer_visits_contract [[DomNode.node 0 [DomNode.node 1 []]]] true
      (DomNode.node 0 [DomNode.node 1 []])).1
      [DomNode.node 0 [DomNode.node 1 []]] (List.mem_singleton.mpr rfl)
      (DomNode.node 0 [DomNode.node 1 []]) (List.mem_singleton.mpr rfl),
   ((observer_visits_contract [] true (DomNode.node 0 [DomNode.node 1 []])).2.2.2
      (by decide)).2 1 (by decide) (by decide)⟩
